import Mathlib

/-!
Verification development for the batched relational loader layer of the
GraphQL API repository (`src/routes/graphql`): the Batched Loader
(deduplicating, batching and caching per-request lookups), the Loader
Registry lifecycle in the request handler, the depth-limit gate of the
handler, and the boolean-returning delete mutations.
-/

namespace RsGraphql

/-- Result of one lookup as delivered to a caller: `Except.error e` for a
failed lookup, `Except.ok (some v)` for a found record, `Except.ok none`
for a missing entity. -/
abbrev Res (V : Type) := Except String (Option V)

/-- A batch fetch function: receives the deduplicated ordered key list of one
batch window and returns either a whole-batch failure or one result per
position. -/
abbrev Fetch (K V : Type) := List K → Except String (List (Res V))

/-- The Result Cache of one Batched Loader instance: an insertion-ordered
association list from Lookup Key to resolved result. -/
abbrev Cache (K V : Type) := List (K × Res V)

variable {K V : Type} [DecidableEq K] {A : Type}

/-- First-match association lookup. -/
def alookup : List (K × A) → K → Option A
  | [], _ => none
  | (k', a) :: t, k => if k = k' then some a else alookup t k

/-- Modelled from the spec: `prime(key, value)` pre-populates the Result
Cache for `key` without a fetch (the loader module `loaders.ts` is not in
the source tree; the Result Cache is set once and never evicted, so an
already-present entry is kept). -/
def primeCache (cache : Cache K V) (k : K) (v : V) : Cache K V :=
  if (alookup cache k).isSome then cache else cache ++ [(k, Except.ok (some v))]

/-- An operation issued against a Batched Loader instance within one
synchronous turn (one Batch Window). -/
inductive Op (K V : Type) where
  | load (k : K)
  | prime (k : K) (v : V)

/-- The pending outcome of one `load` call site: already resolved from the
Result Cache at call time, or waiting on the window's batch fetch for key
`k`. -/
inductive Pending (K V : Type) where
  | now (r : Res V)
  | wait (k : K)

/-- Modelled from the spec: the synchronous phase of one Batch Window (the
loader module `loaders.ts` is not in the source tree). Each `load k`
resolves from the Result Cache when `k` is cached, otherwise registers `k`
into the window's queue if not already registered (deduplicated, first-seen
order); each `prime k v` pre-populates the cache. Returns the cache after
the primes, the queue of keys to fetch, and one pending outcome per `load`
call in call order. -/
def collectOps (cache : Cache K V) (queue : List K) :
    List (Op K V) → Cache K V × List K × List (Pending K V)
  | [] => (cache, queue, [])
  | Op.load k :: rest =>
    match alookup cache k with
    | some r =>
      let s := collectOps cache queue rest
      (s.1, s.2.1, Pending.now r :: s.2.2)
    | none =>
      let s := collectOps cache (if k ∈ queue then queue else queue ++ [k]) rest
      (s.1, s.2.1, Pending.wait k :: s.2.2)
  | Op.prime k v :: rest =>
    let s := collectOps (primeCache cache k v) queue rest
    (s.1, s.2.1, s.2.2)

/-- Resolve one pending outcome given the per-key results fetched in this
window. -/
def resolvePending (fetched : List (K × Res V)) : Pending K V → Res V
  | Pending.now r => r
  | Pending.wait k =>
    (alookup fetched k).getD (Except.error "batch function returned wrong-length result")

/-- Observable outcome of one Batch Window: the Result Cache afterwards, one
outcome per `load` call site in call order, and the argument list of every
invocation of the batch fetch function. -/
structure WindowResult (K V : Type) where
  cache : Cache K V
  outcomes : List (Res V)
  fetchCalls : List (List K)

/-- Modelled from the spec: the dispatch phase of one Batch Window, given
the cache, queue and pending outcomes of the synchronous phase (the loader
module `loaders.ts` is not in the source tree). If the queue is empty no
fetch is dispatched; otherwise the batch fetch function is invoked exactly
once with the deduplicated first-seen-ordered queue. On a whole-batch
failure every pending caller receives that failure and the Result Cache is
not populated for the queued keys; on success each queued key's
per-position result is cached and delivered to every call site that
requested it. -/
def dispatchWindow (fetch : Fetch K V) :
    Cache K V × List K × List (Pending K V) → WindowResult K V
  | (cache1, queue, pend) =>
    if queue.isEmpty then
      { cache := cache1, outcomes := pend.map (resolvePending []), fetchCalls := [] }
    else
      match fetch queue with
      | Except.error e =>
        { cache := cache1
          outcomes := pend.map fun p =>
            match p with
            | Pending.now r => r
            | Pending.wait _ => Except.error e
          fetchCalls := [queue] }
      | Except.ok results =>
        { cache := cache1 ++ queue.zip results
          outcomes := pend.map (resolvePending (queue.zip results))
          fetchCalls := [queue] }

/-- Modelled from the spec: one complete Batch Window of a Batched Loader
instance (the loader module `loaders.ts` is not in the source tree): the
synchronous phase followed by the dispatch phase. -/
def runWindow (fetch : Fetch K V) (cache : Cache K V) (ops : List (Op K V)) :
    WindowResult K V :=
  dispatchWindow fetch (collectOps cache [] ops)

/-- A sequence of Batch Windows run against the same Batched Loader instance:
returns the final Result Cache, the outcome lists of each window, and all
batch fetch invocations in order. -/
def runWindows (fetch : Fetch K V) (cache : Cache K V) :
    List (List (Op K V)) → Cache K V × List (List (Res V)) × List (List K)
  | [] => (cache, [], [])
  | w :: ws =>
    let r := runWindow fetch cache w
    let s := runWindows fetch r.cache ws
    (s.1, r.outcomes :: s.2.1, r.fetchCalls ++ s.2.2)

/-- Modelled from the spec: `loadMany(keys)` is equivalent to issuing `load`
for each key in order within the same window, collecting the outcomes in
input order (the loader module `loaders.ts` is not in the source tree). -/
def loadMany (fetch : Fetch K V) (cache : Cache K V) (ks : List K) : WindowResult K V :=
  runWindow fetch cache (ks.map Op.load)

/-- Deduplicate a key list preserving first-seen order, continuing from the
accumulated queue `acc`. -/
def firstSeenFrom (acc : List K) : List K → List K
  | [] => acc
  | k :: ks => firstSeenFrom (if k ∈ acc then acc else acc ++ [k]) ks

/-- Deduplicate a key list preserving first-seen order. -/
def firstSeen (ks : List K) : List K := firstSeenFrom [] ks

/-- The keys a window's queue holds after the `load` calls of `ks` against
`cache`: a key joins (deduplicated, first-seen order) exactly when it is not
cached. -/
def loadQueue (cache : Cache K V) (queue : List K) : List K → List K
  | [] => queue
  | k :: ks =>
    match alookup cache k with
    | some _ => loadQueue cache queue ks
    | none => loadQueue cache (if k ∈ queue then queue else queue ++ [k]) ks

/-- The pending outcome of a single `load k` against `cache`. -/
def pendOf (cache : Cache K V) (k : K) : Pending K V :=
  match alookup cache k with
  | some r => Pending.now r
  | none => Pending.wait k

/-! ### Loader Registry

`getLoaders` (`loaders.ts`) is called from `getContext` (`index.ts` line 48)
and from `getSchema` (`schemas.ts` line 54). The registry world tracks every
loader bundle created so far; for the isolation claims only each bundle's
Result Cache state matters, so a bundle is represented by one cache. -/

/-- The set of loader bundles created so far; each bundle is identified by
its index of creation. -/
structure LoaderWorld (K V : Type) where
  bundles : List (Cache K V)

/-- Modelled from the spec: `createLoaders()` (the `getLoaders` module is not
in the source tree) returns a fresh bundle whose loaders all start with an
empty Result Cache, never reusing an existing bundle; the new bundle's index
is returned. -/
def createLoaders (w : LoaderWorld K V) : LoaderWorld K V × Nat :=
  ({ bundles := w.bundles ++ [[]] }, w.bundles.length)

/-- The Result Cache of the bundle at index `i`. -/
def bundleCache (w : LoaderWorld K V) (i : Nat) : Cache K V :=
  w.bundles.getD i []

/-- `prime k v` issued against the bundle at index `i`. -/
def primeAt (w : LoaderWorld K V) (i : Nat) (k : K) (v : V) : LoaderWorld K V :=
  { bundles := w.bundles.set i (primeCache (bundleCache w i) k v) }

/-- `load k` issued (in its own window) against the bundle at index `i`:
returns the updated world and the outcomes of that window. -/
def loadAt (w : LoaderWorld K V) (i : Nat) (fetch : Fetch K V) (k : K) :
    LoaderWorld K V × List (Res V) :=
  let r := runWindow fetch (bundleCache w i) [Op.load k]
  ({ bundles := w.bundles.set i r.cache }, r.outcomes)

/-! ### Request handler (`index.ts` lines 18-55, `schemas.ts` lines 47-54) -/

/-- `getContext` (`index.ts` lines 46-55) calls `getLoaders(prisma)` exactly
once to build the request context. -/
def getContextLoaderBundles : Nat := 1

/-- `getSchema` (`schemas.ts` lines 47-54) calls `getLoaders(prisma)` exactly
once at its start and closes the schema's resolvers over that bundle. -/
def getSchemaLoaderBundles : Nat := 1

/-- Loader bundles constructed during one run of the handler
(`index.ts` lines 18-43): `getContext(req, fastify)` at line 19, then
`getSchema(this.prisma)` inside `validate` at line 22, and — only when
validation passes — `getSchema(this.prisma)` again for execution at
line 32. -/
def handlerLoaderBundles (validationPasses : Bool) : Nat :=
  getContextLoaderBundles + getSchemaLoaderBundles +
    (if validationPasses then getSchemaLoaderBundles else 0)

/-- A GraphQL selection: a field name with its sub-selections. -/
inductive Sel where
  | field (name : String) (subs : List Sel)

mutual

/-- Depth of one selection, as counted by the `graphql-depth-limit` rule the
handler installs: a leaf field has depth 0, a field with sub-selections has
depth one more than its deepest sub-selection. -/
def selDepth : Sel → Nat
  | Sel.field _ [] => 0
  | Sel.field _ (s :: ss) => 1 + selsDepth (s :: ss)

/-- Depth of a selection set: the maximum depth of its selections. -/
def selsDepth : List Sel → Nat
  | [] => 0
  | s :: ss => max (selDepth s) (selsDepth ss)

end

/-- The validation errors produced by `depthLimit(5)` (`index.ts` line 22)
for a parsed query `q`: one error when the query is nested beyond the
limit, none otherwise. -/
def depthLimitErrors (limit : Nat) (q : List Sel) : List String :=
  if limit < selsDepth q then ["exceeds maximum operation depth of 5"] else []

/-- What one GraphQL execution (`graphql({...})`, `index.ts` lines 31-36)
would observably do: the produced data, its errors, and how many data-store
accesses its resolvers perform. -/
structure ExecOutcome where
  data : Option String
  errors : List String
  storeAccesses : Nat

/-- The handler's response together with its observable effects. -/
structure HandlerResponse where
  data : Option String
  errors : List String
  executed : Bool
  storeAccesses : Nat

/-- The `POST /` handler (`index.ts` lines 18-43): validate the parsed query
against `depthLimit(5)`; when validation errors exist, return a response
holding only those errors without invoking execution; otherwise execute. -/
def handler (exec : List Sel → ExecOutcome) (q : List Sel) : HandlerResponse :=
  let validationErrors := depthLimitErrors 5 q
  if validationErrors.isEmpty then
    let r := exec q
    { data := r.data, errors := r.errors, executed := true, storeAccesses := r.storeAccesses }
  else
    { data := none, errors := validationErrors, executed := false, storeAccesses := 0 }

/-! ### Delete mutations (`schemas.ts` lines 322-375 and 455-476) -/

/-- A stored table keyed by `K` with rows `R`, as the Prisma delegate sees
it. -/
abbrev Table (K R : Type) := List (K × R)

/-- Remove the first row with key `k`. -/
def eraseKey : Table K A → K → Table K A
  | [], _ => []
  | (k', a) :: t, k => if k = k' then t else (k', a) :: eraseKey t k

/-- `prisma.<model>.delete({ where: ... })`: deletes the addressed row, and
throws when no row with that key exists. -/
def prismaDelete (db : Table K A) (k : K) : Except String (Table K A) :=
  match alookup db k with
  | some _ => Except.ok (eraseKey db k)
  | none => Except.error "An operation failed because it depends on one or more records that were required but not found."

/-- The shared shape of the `deletePost`, `deleteProfile`, `deleteUser` and
`unsubscribeFrom` resolvers (`schemas.ts` lines 322-375, 455-476): await the
delete inside `try`, return `true` on success and `false` from `catch`. -/
def deleteResolve (db : Table K A) (k : K) : Bool × Table K A :=
  match prismaDelete db k with
  | Except.ok db' => (true, db')
  | Except.error _ => (false, db)

/-- A post row (`title`, `content`, `authorId`). -/
structure PostRec where
  title : String
  content : String
  authorId : String

/-- A profile row. -/
structure ProfileRec where
  isMale : Bool
  yearOfBirth : Nat
  userId : String
  memberTypeId : String

/-- A user row. -/
structure UserRec where
  name : String
  balance : Int

/-- `deletePost.resolve` (`schemas.ts` lines 327-338). -/
def deletePostResolve (db : Table String PostRec) (id : String) :
    Bool × Table String PostRec :=
  deleteResolve db id

/-- `deleteProfile.resolve` (`schemas.ts` lines 345-356). -/
def deleteProfileResolve (db : Table String ProfileRec) (id : String) :
    Bool × Table String ProfileRec :=
  deleteResolve db id

/-- `deleteUser.resolve` (`schemas.ts` lines 363-374). -/
def deleteUserResolve (db : Table String UserRec) (id : String) :
    Bool × Table String UserRec :=
  deleteResolve db id

/-- `unsubscribeFrom.resolve` (`schemas.ts` lines 461-475): deletes the
`subscribersOnAuthors` row addressed by the composite
`(subscriberId, authorId)` key. -/
def unsubscribeFromResolve (db : Table (String × String) Unit)
    (userId authorId : String) : Bool × Table (String × String) Unit :=
  deleteResolve db (userId, authorId)

/-! ### Concrete fixtures used by the witnesses -/

/-- A batch fetch backed by a fixed table: every key resolves to its table
entry (or to `none` when absent). -/
def tableFetch (table : List (Nat × Nat)) : Fetch Nat Nat :=
  fun ks => Except.ok (ks.map fun k => Except.ok (alookup table k))

/-- A batch fetch in which key 2's lookup fails while other keys resolve
from a fixed table. -/
def mixedFetch : Fetch Nat Nat :=
  fun ks =>
    Except.ok (ks.map fun k =>
      if k = 2 then Except.error "boom" else Except.ok (alookup [(1, 10), (3, 30)] k))

/-- A batch fetch whose underlying store is down: every invocation fails as
a whole. -/
def downFetch (e : String) : Fetch Nat Nat := fun _ => Except.error e

/-- A query whose selection sets are nested 6 levels deep. -/
def deepQuery : List Sel :=
  [Sel.field "a" [Sel.field "b" [Sel.field "c" [Sel.field "d"
    [Sel.field "e" [Sel.field "f" [Sel.field "g" []]]]]]]]

/-- A stand-in execution that produces data and touches the store once. -/
def execStub : List Sel → ExecOutcome :=
  fun _ => { data := some "d", errors := [], storeAccesses := 1 }

/-! ### Helper lemmas -/

theorem alookup_append_some {l₁ l₂ : List (K × A)} {k : K} {a : A}
    (h : alookup l₁ k = some a) : alookup (l₁ ++ l₂) k = some a := by
  induction l₁ with
  | nil => simp [alookup] at h
  | cons p t ih =>
    obtain ⟨k', a'⟩ := p
    by_cases hk : k = k'
    · simpa [alookup, hk] using h
    · rw [alookup, if_neg hk] at h
      simpa [alookup, hk] using ih h

theorem alookup_append_self {l : List (K × A)} {k : K} (x : A)
    (h : alookup l k = none) : alookup (l ++ [(k, x)]) k = some x := by
  induction l with
  | nil => simp [alookup]
  | cons p t ih =>
    obtain ⟨k', a'⟩ := p
    by_cases hk : k = k'
    · rw [alookup, if_pos hk] at h
      exact absurd h (by simp)
    · rw [alookup, if_neg hk] at h
      simpa [alookup, hk] using ih h

theorem collect_loads (cache : Cache K V) (queue : List K) (ks : List K) :
    collectOps cache queue (ks.map Op.load) =
      (cache, loadQueue cache queue ks, ks.map (pendOf cache)) := by
  induction ks generalizing queue with
  | nil => simp [collectOps, loadQueue]
  | cons k ks ih =>
    cases h : alookup cache k with
    | some r => simp [collectOps, loadQueue, pendOf, h, ih]
    | none => simp [collectOps, loadQueue, pendOf, h, ih]

theorem loadQueue_empty_cache (queue ks : List K) :
    loadQueue ([] : Cache K V) queue ks = firstSeenFrom queue ks := by
  induction ks generalizing queue with
  | nil => rfl
  | cons k ks ih => simp [loadQueue, firstSeenFrom, alookup, ih]

theorem firstSeenFrom_nodup {acc : List K} (h : acc.Nodup) (ks : List K) :
    (firstSeenFrom acc ks).Nodup := by
  induction ks generalizing acc with
  | nil => exact h
  | cons k ks ih =>
    rw [firstSeenFrom]
    by_cases hk : k ∈ acc
    · simpa [hk] using ih h
    · refine ih ?_
      simp [List.nodup_append, h, hk]

theorem mem_firstSeenFrom_left {a : K} {acc : List K} (h : a ∈ acc)
    (ks : List K) : a ∈ firstSeenFrom acc ks := by
  induction ks generalizing acc with
  | nil => exact h
  | cons k ks ih =>
    rw [firstSeenFrom]
    by_cases hk : k ∈ acc
    · simpa [hk] using ih h
    · simp only [hk, if_neg, if_false]
      exact ih (by simp [h])

theorem mem_firstSeenFrom_right {a : K} {ks : List K} (h : a ∈ ks)
    (acc : List K) : a ∈ firstSeenFrom acc ks := by
  induction ks generalizing acc with
  | nil => simp at h
  | cons k ks ih =>
    rw [firstSeenFrom]
    rcases List.mem_cons.mp h with rfl | hmem
    · by_cases hk : a ∈ acc
      · simpa [hk] using mem_firstSeenFrom_left (by simp [hk]) ks
      · simp only [hk, if_false]
        exact mem_firstSeenFrom_left (by simp) ks
    · exact ih hmem _

theorem firstSeen_ne_nil {ks : List K} (h : ks ≠ []) : firstSeen ks ≠ [] := by
  obtain ⟨k, ks', rfl⟩ := List.exists_cons_of_ne_nil h
  intro hfs
  have : k ∈ firstSeen (k :: ks') := mem_firstSeenFrom_right (by simp) []
  rw [hfs] at this
  simp at this

theorem collectOps_cache_extends (cache : Cache K V) (queue : List K)
    (ops : List (Op K V)) : ∃ ext, (collectOps cache queue ops).1 = cache ++ ext := by
  induction ops generalizing cache queue with
  | nil => exact ⟨[], by simp [collectOps]⟩
  | cons op rest ih =>
    cases op with
    | load k =>
      cases h : alookup cache k with
      | some r => simpa [collectOps, h] using ih cache queue
      | none => simpa [collectOps, h] using ih cache _
    | prime k v =>
      obtain ⟨ext, hext⟩ := ih (primeCache cache k v) queue
      have h1 : (collectOps cache queue (Op.prime k v :: rest)).1 =
          (collectOps (primeCache cache k v) queue rest).1 := by
        simp [collectOps]
      by_cases hc : (alookup cache k).isSome
      · exact ⟨ext, by rw [h1, hext]; simp [primeCache, hc]⟩
      · exact ⟨(k, Except.ok (some v)) :: ext, by rw [h1, hext]; simp [primeCache, hc]⟩

theorem runWindow_cache_extends (fetch : Fetch K V) (cache : Cache K V)
    (ops : List (Op K V)) : ∃ ext, (runWindow fetch cache ops).cache = cache ++ ext := by
  obtain ⟨ext, hext⟩ := collectOps_cache_extends cache [] ops
  rw [runWindow]
  rcases hcol : collectOps cache [] ops with ⟨c1, q, pend⟩
  rw [hcol] at hext
  simp only at hext
  simp only [dispatchWindow]
  by_cases hq : q.isEmpty
  · exact ⟨ext, by simp [hq, hext]⟩
  · cases hf : fetch q with
    | error e => exact ⟨ext, by simp [hq, hf, hext]⟩
    | ok results => exact ⟨ext ++ q.zip results, by simp [hq, hf, hext, List.append_assoc]⟩

theorem runWindow_cache_mono (fetch : Fetch K V) (cache : Cache K V)
    (ops : List (Op K V)) {k : K} {r : Res V} (h : alookup cache k = some r) :
    alookup (runWindow fetch cache ops).cache k = some r := by
  obtain ⟨ext, hext⟩ := runWindow_cache_extends fetch cache ops
  rw [hext]
  exact alookup_append_some h

theorem single_load_cached (fetch : Fetch K V) {cache : Cache K V} {k : K}
    {r : Res V} (h : alookup cache k = some r) :
    runWindow fetch cache [Op.load k] =
      { cache := cache, outcomes := [r], fetchCalls := [] } := by
  simp [runWindow, collectOps, h, dispatchWindow, resolvePending]

theorem single_load_uncached (fetch : Fetch K V) {cache : Cache K V} {k : K}
    {r : Res V} (hk : alookup cache k = none) (hf : fetch [k] = Except.ok [r]) :
    runWindow fetch cache [Op.load k] =
      { cache := cache ++ [(k, r)], outcomes := [r], fetchCalls := [[k]] } := by
  simp [runWindow, collectOps, hk, hf, dispatchWindow, resolvePending, alookup]

theorem getD_set_ne {A : Type} (l : List A) {i j : Nat} (hij : i ≠ j) (x d : A) :
    (l.set i x).getD j d = l.getD j d := by
  induction l generalizing i j with
  | nil => simp
  | cons a t ih =>
    cases i with
    | zero =>
      cases j with
      | zero => exact absurd rfl hij
      | succ j => simp [List.getD]
    | succ i =>
      cases j with
      | zero => simp [List.getD]
      | succ j =>
        have : i ≠ j := fun hh => hij (by rw [hh])
        simpa [List.getD] using ih this

theorem getD_append_length {A : Type} (l : List A) (x d : A) :
    (l ++ [x]).getD l.length d = x := by
  induction l with
  | nil => rfl
  | cons a t ih => simp [List.getD_cons_succ, ih]

theorem mem_loadQueue_left {a : K} {queue : List K} (h : a ∈ queue)
    (cache : Cache K V) (ks : List K) : a ∈ loadQueue cache queue ks := by
  induction ks generalizing queue with
  | nil => exact h
  | cons k ks ih =>
    rw [loadQueue]
    cases hc : alookup cache k with
    | some r => exact ih h
    | none =>
      by_cases hq : k ∈ queue
      · rw [if_pos hq]
        exact ih h
      · simp only [hq, if_false]
        exact ih (by simp [h])

theorem mem_loadQueue {a : K} {cache : Cache K V} (ha : alookup cache a = none)
    {ks : List K} (hmem : a ∈ ks) (queue : List K) :
    a ∈ loadQueue cache queue ks := by
  induction ks generalizing queue with
  | nil => simp at hmem
  | cons k ks ih =>
    rw [loadQueue]
    rcases List.mem_cons.mp hmem with rfl | hmem'
    · rw [ha]
      refine mem_loadQueue_left ?_ cache ks
      by_cases hq : a ∈ queue
      · rw [if_pos hq]
        exact hq
      · simp [hq]
    · cases hc : alookup cache k with
      | some r => exact ih hmem' queue
      | none => exact ih hmem' _

theorem loadMany_length (fetch : Fetch K V) (cache : Cache K V) (ks : List K) :
    (loadMany fetch cache ks).outcomes.length = ks.length := by
  rw [loadMany, runWindow, collect_loads]
  by_cases hq : (loadQueue cache [] ks).isEmpty
  · simp [dispatchWindow, hq]
  · cases hf : fetch (loadQueue cache [] ks) <;> simp [dispatchWindow, hq, hf]

theorem deleteResolve_fst (db : Table K A) (k : K) :
    (deleteResolve db k).1 = (alookup db k).isSome := by
  rw [deleteResolve, prismaDelete]
  cases h : alookup db k <;> simp

/-! ### Claim C1: one deduplicated batched fetch per window -/

/-- C1: on a Batched Loader instance, a nonempty sequence of `load` calls
issued within one Batch Window invokes the batch fetch function exactly
once, its argument being the distinct requested keys deduplicated in
first-seen order; every call site's outcome is a function of its key alone,
so the two call sites of a twice-requested key receive that key's single
result. -/
theorem load_window_single_batched_fetch (fetch : Fetch K V) (ks : List K)
    (h : ks ≠ []) :
    (runWindow fetch ([] : Cache K V) (ks.map Op.load)).fetchCalls = [firstSeen ks] ∧
    (firstSeen ks).Nodup ∧
    ∃ f : K → Res V,
      (runWindow fetch ([] : Cache K V) (ks.map Op.load)).outcomes = ks.map f := by
  have hpend : pendOf ([] : Cache K V) = fun k => (Pending.wait k : Pending K V) :=
    funext fun k => by simp [pendOf, alookup]
  have hcol : collectOps ([] : Cache K V) [] (ks.map Op.load) =
      ([], firstSeen ks, ks.map Pending.wait) := by
    rw [collect_loads, loadQueue_empty_cache, hpend]
    rfl
  have hemp : (firstSeen ks).isEmpty = false := by
    cases hfs : firstSeen ks with
    | nil => exact absurd hfs (firstSeen_ne_nil h)
    | cons a t => rfl
  cases hf : fetch (firstSeen ks) with
  | error e =>
    refine ⟨?_, firstSeenFrom_nodup List.nodup_nil ks, fun _ => Except.error e, ?_⟩
    · rw [runWindow, hcol]
      simp [dispatchWindow, hemp, hf]
    · rw [runWindow, hcol]
      simp [dispatchWindow, hemp, hf, List.map_map, Function.comp]
      exact List.map_const ks (Except.error e)
  | ok results =>
    refine ⟨?_, firstSeenFrom_nodup List.nodup_nil ks,
      fun k => (alookup ((firstSeen ks).zip results) k).getD
        (Except.error "batch function returned wrong-length result"), ?_⟩
    · rw [runWindow, hcol]
      simp [dispatchWindow, hemp, hf]
    · rw [runWindow, hcol]
      simp [dispatchWindow, hemp, hf, List.map_map, Function.comp, resolvePending]

/-- C1 witness: three loads of keys 1, 2, 1 in one window produce exactly one
fetch with argument [1, 2]. -/
theorem load_window_single_batched_fetch_witness :
    ([1, 2, 1] : List Nat) ≠ [] ∧
    ((runWindow (tableFetch [(1, 10), (2, 20)]) ([] : Cache Nat Nat)
        ([1, 2, 1].map Op.load)).fetchCalls = [firstSeen [1, 2, 1]] ∧
      (firstSeen ([1, 2, 1] : List Nat)).Nodup ∧
      ∃ f : Nat → Res Nat,
        (runWindow (tableFetch [(1, 10), (2, 20)]) ([] : Cache Nat Nat)
            ([1, 2, 1].map Op.load)).outcomes = [1, 2, 1].map f) :=
  ⟨by decide,
    load_window_single_batched_fetch (tableFetch [(1, 10), (2, 20)]) [1, 2, 1] (by decide)⟩

/-! ### Claim C2: per-instance caching across windows, no eviction -/

/-- C2: once a `load k` has resolved on an instance, a `load k` in a later
Batch Window returns the identical cached result and dispatches no further
fetch (the two windows below perform exactly one fetch, `[[k]]`, and both
deliver the same result `r`); moreover a cache entry, once present, survives
any further window run on that instance — entries are never evicted. -/
theorem load_cached_across_windows (fetch : Fetch K V) (k : K) (r : Res V)
    (h : fetch [k] = Except.ok [r]) :
    (runWindows fetch ([] : Cache K V) [[Op.load k], [Op.load k]]).2.1 = [[r], [r]] ∧
    (runWindows fetch ([] : Cache K V) [[Op.load k], [Op.load k]]).2.2 = [[k]] ∧
    ∀ (cache : Cache K V) (ops : List (Op K V)) (k' : K) (r' : Res V),
      alookup cache k' = some r' →
      alookup (runWindow fetch cache ops).cache k' = some r' := by
  have h0 : alookup ([] : Cache K V) k = none := rfl
  have w1 := single_load_uncached fetch h0 h
  have hc : alookup (([] : Cache K V) ++ [(k, r)]) k = some r :=
    alookup_append_self r h0
  have w2 := single_load_cached fetch hc
  simp only [List.nil_append] at w1 w2
  refine ⟨?_, ?_, fun cache ops k' r' hcc => runWindow_cache_mono fetch cache ops hcc⟩
  · simp [runWindows, w1, w2]
  · simp [runWindows, w1, w2]

/-- C2 witness: key 7 is fetched once and its cached result is returned
identically in a second window. -/
theorem load_cached_across_windows_witness :
    tableFetch [(7, 42)] [7] = Except.ok [Except.ok (some 42)] ∧
    ((runWindows (tableFetch [(7, 42)]) ([] : Cache Nat Nat)
        [[Op.load 7], [Op.load 7]]).2.1 =
          [[Except.ok (some 42)], [Except.ok (some 42)]] ∧
      (runWindows (tableFetch [(7, 42)]) ([] : Cache Nat Nat)
        [[Op.load 7], [Op.load 7]]).2.2 = [[7]] ∧
      ∀ (cache : Cache Nat Nat) (ops : List (Op Nat Nat)) (k' : Nat) (r' : Res Nat),
        alookup cache k' = some r' →
        alookup (runWindow (tableFetch [(7, 42)]) cache ops).cache k' = some r') :=
  ⟨rfl, load_cached_across_windows (tableFetch [(7, 42)]) 7 (Except.ok (some 42)) rfl⟩

/-! ### Claim C8: missing entity is a cached null, not an error -/

/-- C8: when the store does not contain the requested key, the caller
receives `Except.ok none` — a null result, not an error — and this outcome
is cached like a success: the second window returns the same null with no
further fetch. -/
theorem missing_entity_null_cached (fetch : Fetch K V) (k : K)
    (hf : fetch [k] = Except.ok [Except.ok none]) :
    (runWindows fetch ([] : Cache K V) [[Op.load k], [Op.load k]]).2.1 =
      [[Except.ok none], [Except.ok none]] ∧
    (runWindows fetch ([] : Cache K V) [[Op.load k], [Op.load k]]).2.2 = [[k]] := by
  have h0 : alookup ([] : Cache K V) k = none := rfl
  have w1 := single_load_uncached fetch h0 hf
  have hc : alookup (([] : Cache K V) ++ [(k, Except.ok none)]) k =
      some (Except.ok none) := alookup_append_self _ h0
  have w2 := single_load_cached fetch hc
  simp only [List.nil_append] at w1 w2
  constructor
  · simp [runWindows, w1, w2]
  · simp [runWindows, w1, w2]

/-- C8 witness: key 9 is absent from the store table; both windows deliver
the cached null after a single fetch. -/
theorem missing_entity_null_cached_witness :
    tableFetch [(1, 10)] [9] = Except.ok [Except.ok none] ∧
    ((runWindows (tableFetch [(1, 10)]) ([] : Cache Nat Nat)
        [[Op.load 9], [Op.load 9]]).2.1 = [[Except.ok none], [Except.ok none]] ∧
      (runWindows (tableFetch [(1, 10)]) ([] : Cache Nat Nat)
        [[Op.load 9], [Op.load 9]]).2.2 = [[9]]) :=
  ⟨rfl, missing_entity_null_cached (tableFetch [(1, 10)]) 9 rfl⟩

/-! ### Claim C3: request-scoped loader bundles are isolated -/

/-- C3: two separate `createLoaders()` invocations return distinct bundles,
and neither priming a key on the first bundle nor loading a key on it (with
that bundle's own batch fetch function) has any effect on a subsequent
`load` of a key on the second bundle: the second bundle's load outcome is
the same with or without the other bundle's prime or load — no
cross-request result leakage. -/
theorem createLoaders_bundles_isolated (w0 : LoaderWorld K V) (k k' : K)
    (v : V) (fetch fetchA : Fetch K V) :
    (createLoaders w0).2 ≠ (createLoaders (createLoaders w0).1).2 ∧
    (loadAt (primeAt (createLoaders (createLoaders w0).1).1
        (createLoaders w0).2 k' v)
      (createLoaders (createLoaders w0).1).2 fetch k).2 =
      (loadAt (createLoaders (createLoaders w0).1).1
        (createLoaders (createLoaders w0).1).2 fetch k).2 ∧
    (loadAt (loadAt (createLoaders (createLoaders w0).1).1
        (createLoaders w0).2 fetchA k').1
      (createLoaders (createLoaders w0).1).2 fetch k).2 =
      (loadAt (createLoaders (createLoaders w0).1).1
        (createLoaders (createLoaders w0).1).2 fetch k).2 := by
  have hne : (createLoaders w0).2 ≠ (createLoaders (createLoaders w0).1).2 := by
    simp [createLoaders]
  refine ⟨hne, ?_, ?_⟩
  · have hb : bundleCache (primeAt (createLoaders (createLoaders w0).1).1
        (createLoaders w0).2 k' v) (createLoaders (createLoaders w0).1).2 =
        bundleCache (createLoaders (createLoaders w0).1).1
          (createLoaders (createLoaders w0).1).2 := by
      simp only [bundleCache, primeAt]
      exact getD_set_ne _ hne _ _
    simp only [loadAt, hb]
  · have hb : bundleCache (loadAt (createLoaders (createLoaders w0).1).1
        (createLoaders w0).2 fetchA k').1 (createLoaders (createLoaders w0).1).2 =
        bundleCache (createLoaders (createLoaders w0).1).1
          (createLoaders (createLoaders w0).1).2 := by
      simp only [bundleCache, loadAt]
      exact getD_set_ne _ hne _ _
    simp only [loadAt] at hb ⊢
    rw [hb]

/-! ### Claim C4: loader bundles constructed per request -/

/-- C4 counterexample: on a request whose query passes validation, the
handler does not construct exactly one Batched Loader instance per kind —
`getLoaders` runs three times (in `getContext` at `index.ts` line 48, and
once inside each of the two `getSchema(this.prisma)` calls at `index.ts`
lines 22 and 32 via `schemas.ts` line 54), constructing three instances of
each loader kind. -/
theorem handler_not_one_bundle_per_request : handlerLoaderBundles true ≠ 1 := by
  decide

omit [DecidableEq K] in
/-- C4 amended: each handler run constructs a loader bundle three times when
validation passes (context, validation-time schema, execution-time schema)
and twice when it fails; every bundle returned by a `createLoaders`
invocation starts with an empty Result Cache, so no bundle carries state
from a previous request. -/
theorem handler_bundles_per_request :
    handlerLoaderBundles true = 3 ∧ handlerLoaderBundles false = 2 ∧
    ∀ (w : LoaderWorld K V),
      bundleCache (createLoaders w).1 (createLoaders w).2 = [] := by
  refine ⟨rfl, rfl, fun w => ?_⟩
  simp only [createLoaders, bundleCache]
  exact getD_append_length w.bundles [] []

/-! ### Claim C9: depth-limited queries are never executed -/

/-- C9: when the parsed query is nested more than 5 levels deep, the handler
returns a response holding only the depth-limit validation errors — no data
— and never invokes GraphQL execution: no resolver runs, so zero data-store
accesses occur. -/
theorem depth_limited_query_not_executed (exec : List Sel → ExecOutcome)
    (q : List Sel) (h : 5 < selsDepth q) :
    (handler exec q).executed = false ∧
    (handler exec q).data = none ∧
    (handler exec q).errors = depthLimitErrors 5 q ∧
    depthLimitErrors 5 q ≠ [] ∧
    (handler exec q).storeAccesses = 0 := by
  have he : depthLimitErrors 5 q = ["exceeds maximum operation depth of 5"] := by
    simp [depthLimitErrors, h]
  simp [handler, he]

/-- C9 witness: a query nested 6 levels deep is rejected with only the
validation error, no execution and no store access. -/
theorem depth_limited_query_not_executed_witness :
    5 < selsDepth deepQuery ∧
    ((handler execStub deepQuery).executed = false ∧
      (handler execStub deepQuery).data = none ∧
      (handler execStub deepQuery).errors = depthLimitErrors 5 deepQuery ∧
      depthLimitErrors 5 deepQuery ≠ [] ∧
      (handler execStub deepQuery).storeAccesses = 0) :=
  ⟨by decide, depth_limited_query_not_executed execStub deepQuery (by decide)⟩

/-! ### Claim C10: delete mutations always resolve to a boolean -/

/-- C10: the `deletePost`, `deleteProfile`, `deleteUser` and
`unsubscribeFrom` resolvers always produce a boolean — `true` exactly when
the addressed record exists so the underlying delete succeeds, and `false`
when the delete throws (in particular when no record with the given id or
subscriber/author pair exists); the `try`/`catch` shape of `deleteResolve`
turns every failure into `false` rather than a propagated exception. -/
theorem delete_mutations_resolve_to_bool (posts : Table String PostRec)
    (profiles : Table String ProfileRec) (users : Table String UserRec)
    (subs : Table (String × String) Unit) (pid prid uid sid aid : String) :
    (deletePostResolve posts pid).1 = (alookup posts pid).isSome ∧
    (deleteProfileResolve profiles prid).1 = (alookup profiles prid).isSome ∧
    (deleteUserResolve users uid).1 = (alookup users uid).isSome ∧
    (unsubscribeFromResolve subs sid aid).1 = (alookup subs (sid, aid)).isSome :=
  ⟨deleteResolve_fst posts pid, deleteResolve_fst profiles prid,
    deleteResolve_fst users uid, deleteResolve_fst subs (sid, aid)⟩

/-! ### Claim C6: prime pre-populates the cache without a fetch -/

/-- C6: `prime(k, v)` on an instance whose Result Cache does not yet hold
`k` pre-populates the cache, so a subsequent `load(k)` in the same window
resolves to `v` with zero invocations of the batch fetch function. -/
theorem prime_then_load (fetch : Fetch K V) (cache : Cache K V) (k : K) (v : V)
    (h : alookup cache k = none) :
    (runWindow fetch cache [Op.prime k v, Op.load k]).outcomes =
      [Except.ok (some v)] ∧
    (runWindow fetch cache [Op.prime k v, Op.load k]).fetchCalls = [] := by
  have hpc : primeCache cache k v = cache ++ [(k, Except.ok (some v))] := by
    simp [primeCache, h]
  have hl : alookup (cache ++ [(k, Except.ok (some v))]) k =
      some (Except.ok (some v)) := alookup_append_self _ h
  constructor <;>
    simp [runWindow, collectOps, hpc, hl, dispatchWindow, resolvePending]

/-- C6 witness: priming key 5 with value 50 and loading it resolves to 50
with no fetch. -/
theorem prime_then_load_witness :
    alookup ([] : Cache Nat Nat) 5 = none ∧
    ((runWindow (downFetch "down") ([] : Cache Nat Nat)
        [Op.prime 5 50, Op.load 5]).outcomes = [Except.ok (some 50)] ∧
      (runWindow (downFetch "down") ([] : Cache Nat Nat)
        [Op.prime 5 50, Op.load 5]).fetchCalls = []) :=
  ⟨rfl, prime_then_load (downFetch "down") [] 5 50 rfl⟩

/-! ### Claim C5: loadMany collects per-key outcomes in order -/

/-- C5: `loadMany` always yields exactly one outcome per input key (the
call as a whole never fails), and when one key's lookup fails while the
others succeed, the failure appears only at that key's position while the
other positions hold their resolved values. -/
theorem loadMany_per_key_outcomes (fetch : Fetch K V) (k1 k2 k3 : K)
    (v1 v3 : V) (e : String)
    (h12 : k1 ≠ k2) (h13 : k1 ≠ k3) (h23 : k2 ≠ k3)
    (hf : fetch [k1, k2, k3] =
      Except.ok [Except.ok (some v1), Except.error e, Except.ok (some v3)]) :
    (loadMany fetch ([] : Cache K V) [k1, k2, k3]).outcomes =
      [Except.ok (some v1), Except.error e, Except.ok (some v3)] ∧
    ∀ (cache : Cache K V) (ks : List K),
      (loadMany fetch cache ks).outcomes.length = ks.length := by
  refine ⟨?_, fun cache ks => loadMany_length fetch cache ks⟩
  have hcol : collectOps ([] : Cache K V) [] ([k1, k2, k3].map Op.load) =
      ([], [k1, k2, k3], [Pending.wait k1, Pending.wait k2, Pending.wait k3]) := by
    simp [collectOps, alookup, Ne.symm h12, Ne.symm h13, Ne.symm h23]
  rw [loadMany, runWindow, hcol]
  simp [dispatchWindow, hf, resolvePending, alookup, h12, h13, h23,
    Ne.symm h12, Ne.symm h13, Ne.symm h23]

/-- C5 witness: keys 1, 2, 3 where key 2's lookup fails — the result is a
3-element list with the error at position 2 only. -/
theorem loadMany_per_key_outcomes_witness :
    (1 : Nat) ≠ 2 ∧ (1 : Nat) ≠ 3 ∧ (2 : Nat) ≠ 3 ∧
    mixedFetch [1, 2, 3] =
      Except.ok [Except.ok (some 10), Except.error "boom", Except.ok (some 30)] ∧
    ((loadMany mixedFetch ([] : Cache Nat Nat) [1, 2, 3]).outcomes =
        [Except.ok (some 10), Except.error "boom", Except.ok (some 30)] ∧
      ∀ (cache : Cache Nat Nat) (ks : List Nat),
        (loadMany mixedFetch cache ks).outcomes.length = ks.length) :=
  ⟨by decide, by decide, by decide, rfl,
    loadMany_per_key_outcomes mixedFetch 1 2 3 10 30 "boom"
      (by decide) (by decide) (by decide) rfl⟩

/-! ### Claim C7: whole-batch failure is shared and not cached -/

/-- C7: when the batch fetch function itself fails, every `load` call site
of that window whose key was not already cached receives that same failure
(cached keys keep their cached results); the Result Cache is left exactly as
it was — no entry is populated for the window's keys — so a later `load` of
such a key on the same instance dispatches a fresh fetch, which can then
succeed. -/
theorem batch_failure_shared_not_cached (f g : Fetch K V) (cache : Cache K V)
    (ks : List K) (k : K) (e : String) (r : Res V)
    (hf : ∀ l, f l = Except.error e)
    (hk : alookup cache k = none) (hmem : k ∈ ks)
    (hg : g [k] = Except.ok [r]) :
    (runWindow f cache (ks.map Op.load)).outcomes =
      ks.map (fun a => (alookup cache a).getD (Except.error e)) ∧
    (runWindow f cache (ks.map Op.load)).cache = cache ∧
    (runWindow g (runWindow f cache (ks.map Op.load)).cache [Op.load k]).outcomes =
      [r] ∧
    (runWindow g (runWindow f cache (ks.map Op.load)).cache [Op.load k]).fetchCalls =
      [[k]] := by
  have hemp : (loadQueue cache [] ks).isEmpty = false := by
    cases hq0 : loadQueue cache [] ks with
    | nil =>
      have := mem_loadQueue hk hmem ([] : List K)
      rw [hq0] at this
      simp at this
    | cons a t => rfl
  have hout : (runWindow f cache (ks.map Op.load)).outcomes =
      ks.map (fun a => (alookup cache a).getD (Except.error e)) := by
    rw [runWindow, collect_loads]
    simp only [dispatchWindow, hemp, Bool.false_eq_true, if_false, hf, List.map_map]
    refine congrArg (fun fn => List.map fn ks) (funext fun a => ?_)
    cases hca : alookup cache a <;> simp [Function.comp, pendOf, hca]
  have hcache : (runWindow f cache (ks.map Op.load)).cache = cache := by
    rw [runWindow, collect_loads]
    simp [dispatchWindow, hemp, hf]
  have hretry := single_load_uncached g hk hg
  refine ⟨hout, hcache, ?_, ?_⟩ <;> rw [hcache, hretry]

/-- C7 witness: with the store down, keys 1 and 2 both receive the shared
failure, the cache stays empty, and a retry of key 1 against a recovered
store fetches anew and succeeds. -/
theorem batch_failure_shared_not_cached_witness :
    (∀ l, downFetch "down" l = Except.error "down") ∧
    alookup ([] : Cache Nat Nat) 1 = none ∧
    (1 : Nat) ∈ [1, 2] ∧
    tableFetch [(1, 10)] [1] = Except.ok [Except.ok (some 10)] ∧
    ((runWindow (downFetch "down") ([] : Cache Nat Nat)
        ([1, 2].map Op.load)).outcomes =
        [1, 2].map (fun a => (alookup ([] : Cache Nat Nat) a).getD
          (Except.error "down")) ∧
      (runWindow (downFetch "down") ([] : Cache Nat Nat)
        ([1, 2].map Op.load)).cache = [] ∧
      (runWindow (tableFetch [(1, 10)])
        (runWindow (downFetch "down") ([] : Cache Nat Nat)
          ([1, 2].map Op.load)).cache [Op.load 1]).outcomes =
        [Except.ok (some 10)] ∧
      (runWindow (tableFetch [(1, 10)])
        (runWindow (downFetch "down") ([] : Cache Nat Nat)
          ([1, 2].map Op.load)).cache [Op.load 1]).fetchCalls = [[1]]) :=
  ⟨fun _ => rfl, rfl, by decide, rfl,
    batch_failure_shared_not_cached (downFetch "down") (tableFetch [(1, 10)])
      [] [1, 2] 1 "down" (Except.ok (some 10))
      (fun _ => rfl) rfl (by decide) rfl⟩

end RsGraphql
